import Mathlib

/-!
# Verification of the tiny_web_nav_agent control loop

A shallow embedding of the core of the `tiny_web_nav_agent` repository:
the action parser (`src/agent.py:parse_action`), the conversation image
trimmer (`trim_images`), the message builder (`build_message`), the step
executor (`execute_action`), the agent loop (`WebNavAgent.run`), and the
reasoning extraction performed by the run recorder (`src/save_results.py`).

Python strings are modelled as `List Char` (ASCII inputs), dictionaries
with a fixed key set as structures, and `dict[str, Any]` argument maps as
association lists in insertion order.  Exceptions are modelled with
`Except String`.  The two regular expressions of the source,
`Action:\s*(\w+)\(([^)]*)\)` and `Action:\s*(\w+)`, are deterministic on
every input (each greedy element is followed by a required element that is
disjoint from it), so they are embedded as leftmost maximal-munch scanners.
-/

deriving instance DecidableEq for Except

namespace WebNav

/-! ## Python character classes and string helpers -/

/-- Python `\s` on ASCII text: space, tab, newline, carriage return,
vertical tab, form feed. -/
def pyIsSpace (c : Char) : Bool :=
  c == ' ' || c == '\t' || c == '\n' || c == '\r' || c == '\x0b' || c == '\x0c'

/-- Python `\w` on ASCII text: letters, digits, underscore. -/
def pyIsWord (c : Char) : Bool :=
  c.isAlphanum || c == '_'

/-- Python `str.strip()`: remove whitespace from both ends. -/
def pyStrip (cs : List Char) : List Char :=
  ((cs.dropWhile pyIsSpace).reverse.dropWhile pyIsSpace).reverse

/-- Python `str.strip(chars)`: remove any of the given characters from both
ends (used by the source as `strip("'\"")`). -/
def pyStripChars (bad : List Char) (cs : List Char) : List Char :=
  ((cs.dropWhile (bad.contains ·)).reverse.dropWhile (bad.contains ·)).reverse

/-- Python `str.lower()` on ASCII text. -/
def pyLower (cs : List Char) : List Char :=
  cs.map Char.toLower

/-- Python `str.split(",")`: split at every comma; the empty string yields
`[""]`. -/
def splitComma : List Char → List (List Char)
  | [] => [[]]
  | c :: rest =>
    match splitComma rest with
    | [] => [[]]
    | h :: t => if c = ',' then [] :: h :: t else (c :: h) :: t

/-- Decimal value of a digit list (most significant first). -/
def digitsVal (cs : List Char) : Nat :=
  cs.foldl (fun a c => 10 * a + (c.toNat - 48)) 0

/-- Model of Python `int(s)` on an already-stripped string: an optional
sign followed by a non-empty run of decimal digits; anything else raises
`ValueError` (modelled as `none`).  Underscore digit grouping, which CPython
also accepts, is not modelled: no caller in this repository produces it. -/
def pyInt (cs : List Char) : Option Int :=
  match cs with
  | '+' :: rest =>
    if rest ≠ [] ∧ rest.all Char.isDigit then some ((digitsVal rest : Int))
    else none
  | '-' :: rest =>
    if rest ≠ [] ∧ rest.all Char.isDigit then some (-(digitsVal rest : Int))
    else none
  | _ =>
    if cs ≠ [] ∧ cs.all Char.isDigit then some ((digitsVal cs : Int)) else none

/-- Strip a literal prefix, or fail. -/
def dropLit : List Char → List Char → Option (List Char)
  | [], cs => some cs
  | _, [] => none
  | l :: ls, c :: cs => if c = l then dropLit ls cs else none

/-! ## Data model (`src/agent.py`) -/

/-- A value stored in an `Action.args` dictionary. -/
inductive AVal where
  | int (i : Int)
  | str (s : String)
deriving DecidableEq, Repr

/-- `Action` dataclass: `name`, `args` (a string-keyed dictionary, modelled
as an association list in insertion order), and an optional `error`. -/
structure Action where
  name : String
  args : List (String × AVal) := []
  error : Option String := none
deriving DecidableEq, Repr

/-- `BrowserState` dataclass from `src/browser.py`. -/
structure BrowserState where
  screenshot_b64 : String
  url : String
deriving DecidableEq, Repr

/-- One content part of a user message: a dict with a `"type"` field and a
payload (`"text"` for text parts, `"image_url"` for image parts). -/
structure Part where
  type : String
  text : String := ""
  image_url : String := ""
deriving DecidableEq, Repr

/-- Message content: either a plain string or a list of typed parts. -/
inductive Content where
  | str (s : String)
  | parts (l : List Part)
deriving DecidableEq, Repr

/-- One conversation message: a dict with `"role"` and `"content"`. -/
structure Message where
  role : String
  content : Content
deriving DecidableEq, Repr

/-- `Step` dataclass: the pre-turn browser state, the raw LLM reply, and
the parsed (or error) action. -/
structure Step where
  state : BrowserState
  response : String
  action : Action
deriving DecidableEq, Repr

/-! ## The action parser (`src/agent.py:parse_action`)

`re.search(r"Action:\s*(\w+)\(([^)]*)\)", response)` finds the leftmost
position where the pattern matches; at a fixed position the match is
deterministic: `\s*` (maximal) is followed by `\w+` (disjoint from `\s`),
`\w+` (maximal) is followed by `(` (not a word character), and `[^)]*`
(maximal) is followed by `)` (excluded from the class), so backtracking can
never produce a different result. -/

/-- Match `Action:\s*(\w+)\(([^)]*)\)` anchored at the head of `cs`,
returning the two capture groups (name, raw argument substring). -/
def matchParenHere (cs : List Char) : Option (List Char × List Char) :=
  match dropLit "Action:".data cs with
  | none => none
  | some rest =>
    let afterWs := rest.dropWhile pyIsSpace
    let name := afterWs.takeWhile pyIsWord
    if name = [] then none
    else
      match afterWs.dropWhile pyIsWord with
      | '(' :: rest2 =>
        match rest2.dropWhile (fun c => !(c == ')')) with
        | ')' :: _ => some (name, rest2.takeWhile (fun c => !(c == ')')))
        | _ => none
      | _ => none

/-- Match `Action:\s*(\w+)` anchored at the head of `cs`, returning the
captured name. -/
def matchBareHere (cs : List Char) : Option (List Char) :=
  match dropLit "Action:".data cs with
  | none => none
  | some rest =>
    let name := (rest.dropWhile pyIsSpace).takeWhile pyIsWord
    if name = [] then none else some name

/-- `re.search` for the parenthesized action pattern: try every start
position left to right. -/
def findParen : List Char → Option (List Char × List Char)
  | [] => none
  | c :: rest =>
    match matchParenHere (c :: rest) with
    | some r => some r
    | none => findParen rest

/-- `re.search` for the bare `Action:\s*(\w+)` pattern. -/
def findBare : List Char → Option (List Char)
  | [] => none
  | c :: rest =>
    match matchBareHere (c :: rest) with
    | some r => some r
    | none => findBare rest

/-- The `ValueError` text CPython produces for a failed `int(tok)`,
wrapped by the source's `except ValueError` handler. -/
def invalidIntMsg (tok : List Char) : String :=
  "Invalid argument format: invalid literal for int() with base 10: '"
    ++ String.mk tok ++ "'"

/-- The `if name == ... elif ...` dispatch chain of `parse_action`, applied
to the matched name and the stripped argument substring `args_str`.
`ActionParseError` and the `except ValueError` wrapper are both modelled as
`Except.error`. -/
def dispatchAction (name : String) (args_str : List Char) : Except String Action :=
  if name = "Click" then
    if args_str = [] then .error "Click requires coordinates: Click(x, y)"
    else
      let parts := (splitComma args_str).map pyStrip
      if parts.length ≠ 2 then
        .error ("Click requires exactly 2 arguments (x, y), got "
          ++ toString parts.length)
      else
        match pyInt (parts.getD 0 []) with
        | none => .error (invalidIntMsg (parts.getD 0 []))
        | some x =>
          match pyInt (parts.getD 1 []) with
          | none => .error (invalidIntMsg (parts.getD 1 []))
          | some y =>
            if ¬(0 ≤ x ∧ x ≤ 1000 ∧ 0 ≤ y ∧ y ≤ 1000) then
              .error ("Coordinates must be 0-1000, got (" ++ toString x ++ ", "
                ++ toString y ++ ")")
            else .ok { name := "Click", args := [("x", .int x), ("y", .int y)] }
  else if name = "Scroll" then
    if args_str = [] then .error "Scroll requires arguments: Scroll(x, y, direction)"
    else
      let parts := (splitComma args_str).map pyStrip
      if parts.length ≠ 3 then
        .error ("Scroll requires 3 arguments (x, y, direction), got "
          ++ toString parts.length)
      else
        match pyInt (parts.getD 0 []) with
        | none => .error (invalidIntMsg (parts.getD 0 []))
        | some x =>
          match pyInt (parts.getD 1 []) with
          | none => .error (invalidIntMsg (parts.getD 1 []))
          | some y =>
            let direction := String.mk (pyLower (pyStripChars ['\'', '"']
              (parts.getD 2 [])))
            if ¬(direction = "up" ∨ direction = "down") then
              .error ("Scroll direction must be 'up' or 'down', got '"
                ++ direction ++ "'")
            else .ok { name := "Scroll"
                       args := [("x", .int x), ("y", .int y),
                         ("direction", .str direction)] }
  else if name = "Type" then
    if args_str = [] then .error "Type requires content: Type(text to type)"
    else .ok { name := "Type", args := [("content", .str (String.mk args_str))] }
  else if name = "Press" then
    if args_str = [] then .error "Press requires a key: Press(Enter)"
    else .ok { name := "Press", args := [("key", .str (String.mk args_str))] }
  else if name = "CallUser" then
    if args_str = [] then
      .error "CallUser requires a question: CallUser(your question here)"
    else .ok { name := "CallUser", args := [("question", .str (String.mk args_str))] }
  else if name = "Wait" ∨ name = "Finished" then .ok { name := name }
  else .error ("Unknown action: " ++ name)

/-- `parse_action(response)`: search for `Action: Name(args)`, fall back to
a bare `Action: Name` (legal only for `Wait`/`Finished`), otherwise fail.
A raised `ActionParseError` is modelled as `Except.error`. -/
def parse_action (response : String) : Except String Action :=
  match findParen response.data with
  | some (name, argsRaw) => dispatchAction (String.mk name) (pyStrip argsRaw)
  | none =>
    match findBare response.data with
    | some nameChars =>
      let name := String.mk nameChars
      if name = "Wait" ∨ name = "Finished" then .ok { name := name }
      else .error ("Action '" ++ name ++ "' requires arguments but none provided")
    | none =>
      .error "No valid action found in response. Expected format: Action: Name(args)"

example : parse_action "Action: Click(500, 300)" =
    .ok { name := "Click", args := [("x", .int 500), ("y", .int 300)] } := by decide

example : parse_action "Action: Wait" = .ok { name := "Wait" } := by decide

example : parse_action "Action: Scroll(1,2,UP)" =
    .ok { name := "Scroll"
          args := [("x", .int 1), ("y", .int 2), ("direction", .str "up")] } := by
  decide

/-! ## Conversation building and image trimming (`src/agent.py`) -/

/-- `build_message(state, task)`: a user message whose parts are the
optional task text, the current URL text, and the screenshot image. -/
def build_message (state : BrowserState) (task : Option String := none) : Message :=
  let taskParts : List Part :=
    match task with
    | some t => [{ type := "text", text := "Task: " ++ t }]
    | none => []
  { role := "user"
    content := .parts (taskParts ++
      [{ type := "text", text := "Current URL: " ++ state.url },
       { type := "image_url"
         image_url := "data:image/png;base64," ++ state.screenshot_b64 }]) }

/-- The membership test of the index-collecting loop in `trim_images`: a
user message whose content is a list containing an `"image_url"` part. -/
def msgHasImage (msg : Message) : Bool :=
  msg.role == "user" &&
    match msg.content with
    | .parts l => l.any (fun item => item.type == "image_url")
    | .str _ => false

/-- The `image_indices` list built by the first loop of `trim_images`. -/
def imageIndices (conversation : List Message) : List Nat :=
  (conversation.enum.filter (fun p => msgHasImage p.2)).map Prod.fst

/-- Python's negative-end slice `l[:-k]`: for `k > 0` this drops the last
`k` elements; for `k = 0` it is `l[:0]`, the empty list. -/
def pySliceToNeg (l : List Nat) (k : Nat) : List Nat :=
  if k = 0 then [] else l.take (l.length - k)

/-- `trim_images(conversation, max_images)` from `src/agent.py`. -/
def trim_images (conversation : List Message) (max_images : Nat) : List Message :=
  let image_indices := imageIndices conversation
  if image_indices.length ≤ max_images then conversation
  else
    let indices_to_remove := pySliceToNeg image_indices max_images
    conversation.enum.filterMap (fun p =>
      if p.1 ∈ indices_to_remove then
        match p.2.role == "user", p.2.content with
        | true, .parts l =>
          let new_content := l.filter (fun item => !(item.type == "image_url"))
          if new_content ≠ [] then
            some { role := "user", content := .parts new_content }
          else none
        | _, _ => none
      else some p.2)

/-! ## Step executor and agent loop (`src/agent.py`) -/

/-- The Browser Controller interface (`src/browser.py`), as a state machine
over an abstract browser state `σ`.  Every operation backed by Playwright
can raise; a raised exception is `Except.error` and leaves `σ` behind. -/
structure BrowserAPI (σ : Type) where
  start : String → Except String (σ × BrowserState)
  get_state : σ → Except String (σ × BrowserState)
  click : σ → Int → Int → Except String σ
  scroll : σ → Int → Int → String → Except String σ
  type_text : σ → String → Except String σ
  press_key : σ → String → Except String σ
  wait : σ → Nat → Except String σ

/-- `execute_action(action, browser)`: dispatch to the browser, catching
every exception into `"Action execution failed: {e}"`.  Actions whose name
matches no branch (`Finished`, `CallUser`, `Error`, unknown) fall through
and return success.  A missing or mistyped argument would raise a
`KeyError`/`TypeError` inside the `try` block (unreachable for actions
produced by `parse_action`). -/
def execute_action (action : Action) (api : BrowserAPI σ) (b : σ) :
    σ × Option String :=
  let attempt : Except String σ :=
    if action.name = "Click" then
      match action.args.lookup "x", action.args.lookup "y" with
      | some (.int x), some (.int y) => api.click b x y
      | _, _ => .error "KeyError"
    else if action.name = "Scroll" then
      match action.args.lookup "x", action.args.lookup "y",
          action.args.lookup "direction" with
      | some (.int x), some (.int y), some (.str d) => api.scroll b x y d
      | _, _, _ => .error "KeyError"
    else if action.name = "Type" then
      match action.args.lookup "content" with
      | some (.str c) => api.type_text b c
      | _ => .error "KeyError"
    else if action.name = "Press" then
      match action.args.lookup "key" with
      | some (.str k) => api.press_key b k
      | _ => .error "KeyError"
    else if action.name = "Wait" then api.wait b 1000
    else .ok b
  match attempt with
  | .ok b2 => (b2, none)
  | .error e => (b, some ("Action execution failed: " ++ e))

/-- Python truthiness of `action.error` (an `Optional[str]`). -/
def errTruthy : Option String → Bool
  | none => false
  | some s => s != ""

/-- The constructor arguments of `WebNavAgent`, with the LLM client and the
human input channel as pure oracles. -/
structure AgentConfig (σ : Type) where
  llm_fn : List Message → String
  max_images : Nat := 1
  max_steps : Nat := 10
  start_url : String := "https://www.amazon.com/"
  user_input_fn : String → String
  api : BrowserAPI σ

/-- The `for _ in range(self.max_steps)` body of `WebNavAgent.run`.
The source appends the `Step` before possibly attaching an execution error
to the `Action` object it shares with the recorded step; recording the
enriched action directly is the same because the mutation targets that
shared object.  An exception escaping the loop (from `wait`/`get_state`)
aborts the run, discarding the accumulated steps. -/
def runLoop (cfg : AgentConfig σ) :
    Nat → List Step → List Message → BrowserState → σ → Except String (List Step)
  | 0, steps, _, _, _ => .ok steps
  | fuel + 1, steps, conversation, state, b =>
    let trimmed_conv := trim_images conversation cfg.max_images
    let response := cfg.llm_fn trimmed_conv
    let conversation := conversation ++
      [{ role := "assistant", content := .str response }]
    let action : Action :=
      match parse_action response with
      | .ok a => a
      | .error e => { name := "Error", error := some e }
    if errTruthy action.error then
      let conversation := conversation ++
        [{ role := "user"
           content := .str ("Error: " ++ action.error.getD "" ++
             "\nPlease try again with a valid action.") }]
      runLoop cfg fuel
        (steps ++ [{ state := state, response := response, action := action }])
        conversation state b
    else if action.name = "Finished" then
      .ok (steps ++ [{ state := state, response := response, action := action }])
    else if action.name = "CallUser" then
      let question :=
        match action.args.lookup "question" with
        | some (.str q) => q
        | _ => "Agent needs assistance"
      let user_response :=
        cfg.user_input_fn ("Agent asks: " ++ question ++ "\nYour response: ")
      let conversation := conversation ++
        [{ role := "user", content := .str ("User response: " ++ user_response) }]
      runLoop cfg fuel
        (steps ++ [{ state := state, response := response, action := action }])
        conversation state b
    else
      match execute_action action cfg.api b with
      | (b2, some err) =>
        let conversation := conversation ++
          [{ role := "user"
             content := .str ("Error: " ++ err ++
               "\nPlease try a different action.") }]
        runLoop cfg fuel
          (steps ++ [{ state := state, response := response
                       action := { action with error := some err } }])
          conversation state b2
      | (b2, none) =>
        match cfg.api.wait b2 3000 with
        | .error e => .error e
        | .ok b3 =>
          match cfg.api.get_state b3 with
          | .error e => .error e
          | .ok (b4, state2) =>
            let conversation := conversation ++ [build_message state2]
            runLoop cfg fuel
              (steps ++ [{ state := state, response := response, action := action }])
              conversation state2 b4

/-- The system prompt of `src/agent.py` (its text never influences the
control flow verified here; only its role `"system"` does). -/
def SYSTEM_PROMPT : String :=
  "You are a web navigation agent. You control a browser to accomplish user tasks.

## Input
Each turn you receive:
- A screenshot of the current webpage
- The current URL

## Output Format
Think step by step, then output your action:

<reasoning>
[Your thinking about what to do next]
</reasoning>
Action: ActionName(arguments)

## Available Actions
- Click(x, y) - Click at coordinates
- Scroll(x, y, direction) - Scroll at position, direction is \"up\" or \"down\"
- Type(text) - Type text (click input field first)
- Press(key) - Press key: Enter, Tab, Escape, Backspace, etc.
- Wait() - Wait for page to load
- Finished() - Task complete
- CallUser(question) - Ask user for help

## Coordinate System
Coordinates are 0-1000 for both x and y:
- (0, 0) = top-left
- (1000, 1000) = bottom-right
- (500, 500) = center

## Examples
<reasoning>
I see Google's homepage. I need to click the search box to type my query.
</reasoning>
Action: Click(500, 400)

<reasoning>
The search box is focused. I'll type my search query.
</reasoning>
Action: Type(flights to Paris)

<reasoning>
Query typed. I'll press Enter to search.
</reasoning>
Action: Press(Enter)

<reasoning>
I need login credentials. I'll ask the user.
</reasoning>
Action: CallUser(What are the login credentials?)"

/-- `WebNavAgent.run(task)`: start the browser, seed the conversation with
the system prompt and the first turn message, then iterate the loop at most
`max_steps` times. -/
def run (cfg : AgentConfig σ) (task : String) : Except String (List Step) :=
  let conversation : List Message :=
    [{ role := "system", content := .str SYSTEM_PROMPT }]
  match cfg.api.start cfg.start_url with
  | .error e => .error e
  | .ok (b, state) =>
    let conversation := conversation ++ [build_message state (some task)]
    runLoop cfg cfg.max_steps [] conversation state b

/-! ## Reasoning extraction by the run recorder (`src/save_results.py`)

`re.search(r"<reasoning>(.*?)</reasoning>", response, re.DOTALL)` matches
at the first occurrence of `<reasoning>` that is followed (anywhere later)
by `</reasoning>`; if the first occurrence has no closing tag after it, no
later occurrence has one either, so the whole search fails.  The lazy
`(.*?)` captures up to the earliest `</reasoning>` after the opening tag.
The source then applies `.strip()` to the captured group, and falls back to
`""` when there is no match. -/

/-- Index of the first occurrence of `pat` in `cs`, if any. -/
def findSub (pat : List Char) : List Char → Option Nat
  | [] => if pat = [] then some 0 else none
  | c :: rest =>
    if pat.isPrefixOf (c :: rest) then some 0
    else (findSub pat rest).map (· + 1)

/-- The reasoning text `save_run` records for one step. -/
def extract_reasoning (response : String) : String :=
  match findSub "<reasoning>".data response.data with
  | none => ""
  | some i =>
    let after := response.data.drop (i + "<reasoning>".data.length)
    match findSub "</reasoning>".data after with
    | none => ""
    | some j => String.mk (pyStrip (after.take j))

/-! ## Auxiliary definitions used only by the statements and proofs -/

/-- The content parts of a message (empty for plain-string content). -/
def partsOf (msg : Message) : List Part :=
  match msg.content with
  | .parts l => l
  | .str _ => []

/-- The non-image parts of a message's content. -/
def keptParts (msg : Message) : List Part :=
  (partsOf msg).filter (fun item => !(item.type == "image_url"))

/-- The rewrite `trim_images` applies to one selected image-bearing
message: strip the image parts, keep the message only if parts remain.
This is the body of the removal branch of the second loop. -/
def stripOpt (msg : Message) : Option Message :=
  match msg.role == "user", msg.content with
  | true, .parts l =>
    let new_content := l.filter (fun item => !(item.type == "image_url"))
    if new_content ≠ [] then
      some { role := "user", content := .parts new_content }
    else none
  | _, _ => none

/-- The spec's description of trimming (§4.2): walk the conversation in
order; each of the first `m` image-bearing messages is rewritten by
stripping its image parts (dropped entirely if nothing remains); every
other message passes through unchanged. -/
def trimSpec : Nat → List Message → List Message
  | _, [] => []
  | 0, msgs => msgs
  | m + 1, msg :: rest =>
    if msgHasImage msg then (stripOpt msg).toList ++ trimSpec m rest
    else msg :: trimSpec (m + 1) rest

/-- `imageIndices` generalized to an arbitrary enumeration offset, for
reasoning about the tail of a conversation. -/
def imageIndicesFrom (j : Nat) (conversation : List Message) : List Nat :=
  ((List.enumFrom j conversation).filter (fun p => msgHasImage p.2)).map
    Prod.fst

/-- The closed set of recognized action names. -/
def knownActionNames : List String :=
  ["Click", "Scroll", "Type", "Press", "CallUser", "Wait", "Finished"]

/-- A successfully parsed action: a recognized name and no error. -/
def validAction (a : Action) : Prop :=
  a.name ∈ knownActionNames ∧ a.error = none

instance (a : Action) : Decidable (validAction a) := by
  unfold validAction; infer_instance

/-- A non-empty string of decimal digits. -/
def isDigitString (cs : List Char) : Prop :=
  cs ≠ [] ∧ ∀ c ∈ cs, c.isDigit = true

/-- A user message carrying one text part and one screenshot part, as
`build_message` produces. -/
def imgUserMsg (t u : String) : Message :=
  { role := "user"
    content := .parts [{ type := "text", text := t },
      { type := "image_url", image_url := u }] }

/-- A conversation with a single image-bearing message. -/
def convOne : List Message :=
  [{ role := "system", content := .str "prompt" }, imgUserMsg "URL1" "img1"]

/-- A conversation with two image-bearing messages. -/
def convTwo : List Message :=
  [{ role := "system", content := .str "prompt" },
   imgUserMsg "URL1" "img1",
   { role := "assistant", content := .str "reply" },
   imgUserMsg "URL2" "img2"]

/-! ### The concrete 3-turn scenario of the end-to-end property -/

/-- The browser state of the scenario (never refreshed: no action of the
scenario succeeds in mutating the browser). -/
def scenState : BrowserState :=
  { screenshot_b64 := "c2NyZWVuc2hvdA==", url := "https://start.example/" }

/-- A browser controller whose `click` operation throws. -/
def scenAPI : BrowserAPI Unit :=
  { start := fun _ => .ok ((), scenState)
    get_state := fun b => .ok (b, scenState)
    click := fun _ _ _ => .error "Browser error"
    scroll := fun b _ _ _ => .ok b
    type_text := fun b _ => .ok b
    press_key := fun b _ => .ok b
    wait := fun b _ => .ok b }

/-- The scripted LLM: unparsable text on turn 1, a click on turn 2,
`Finished` on turn 3 (the turn index is the number of assistant messages
already in the transcript it receives). -/
def scenLLM (conv : List Message) : String :=
  match (conv.filter (fun m => m.role == "assistant")).length with
  | 0 => "I am not sure what to do here."
  | 1 => "Action: Click(500,300)"
  | _ => "Action: Finished()"

/-- The scenario agent: `max_steps = 10`, scripted LLM, throwing click. -/
def scenCfg : AgentConfig Unit :=
  { llm_fn := scenLLM
    max_images := 1
    max_steps := 10
    start_url := "https://start.example/"
    user_input_fn := fun _ => ""
    api := scenAPI }

/-- The trace the scenario run must produce. -/
def scenSteps : List Step :=
  [{ state := scenState
     response := "I am not sure what to do here."
     action := { name := "Error"
                 error := some "No valid action found in response. Expected format: Action: Name(args)" } },
   { state := scenState
     response := "Action: Click(500,300)"
     action := { name := "Click"
                 args := [("x", .int 500), ("y", .int 300)]
                 error := some "Action execution failed: Browser error" } },
   { state := scenState
     response := "Action: Finished()"
     action := { name := "Finished" } }]

/-! ## Helper lemmas -/

theorem takeWhile_append_all {α : Type} {p : α → Bool} {l r : List α}
    (h : ∀ c ∈ l, p c = true) :
    (l ++ r).takeWhile p = l ++ r.takeWhile p := by
  induction l with
  | nil => simp
  | cons c cs ih =>
    have hc : p c = true := h c (List.mem_cons_self c cs)
    simp only [List.cons_append, List.takeWhile_cons, hc, if_true]
    rw [ih (fun x hx => h x (List.mem_cons_of_mem c hx))]

theorem dropWhile_append_all {α : Type} {p : α → Bool} {l r : List α}
    (h : ∀ c ∈ l, p c = true) :
    (l ++ r).dropWhile p = r.dropWhile p := by
  induction l with
  | nil => simp
  | cons c cs ih =>
    have hc : p c = true := h c (List.mem_cons_self c cs)
    simp only [List.cons_append, List.dropWhile_cons, hc, if_true]
    exact ih (fun x hx => h x (List.mem_cons_of_mem c hx))

theorem dropWhile_eq_self_all {α : Type} {p : α → Bool} {l : List α}
    (h : ∀ c ∈ l, p c = false) :
    l.dropWhile p = l := by
  cases l with
  | nil => rfl
  | cons c cs =>
    have hc : p c = false := h c (List.mem_cons_self c cs)
    simp [List.dropWhile_cons, hc]

theorem takeWhile_eq_self_all {α : Type} {p : α → Bool} {l : List α}
    (h : ∀ c ∈ l, p c = true) :
    l.takeWhile p = l :=
  List.takeWhile_eq_self_iff.mpr h

theorem pyStrip_no_space {cs : List Char}
    (h : ∀ c ∈ cs, pyIsSpace c = false) : pyStrip cs = cs := by
  unfold pyStrip
  rw [dropWhile_eq_self_all h, dropWhile_eq_self_all (by
    intro c hc
    exact h c (List.mem_reverse.mp hc)), List.reverse_reverse]

example : extract_reasoning "<reasoning>\nplan\n</reasoning>\nAction: Wait" =
    "plan" := by decide

example :
    trim_images
      [⟨"system", .str "S"⟩,
       ⟨"user", .parts [⟨"text", "URL1", ""⟩, ⟨"image_url", "", "i1"⟩]⟩,
       ⟨"assistant", .str "A"⟩,
       ⟨"user", .parts [⟨"text", "URL2", ""⟩, ⟨"image_url", "", "i2"⟩]⟩] 1 =
      [⟨"system", .str "S"⟩,
       ⟨"user", .parts [⟨"text", "URL1", ""⟩]⟩,
       ⟨"assistant", .str "A"⟩,
       ⟨"user", .parts [⟨"text", "URL2", ""⟩, ⟨"image_url", "", "i2"⟩]⟩] := by
  decide

/-! ## Parser lemmas -/

theorem word_not_space {c : Char} (h : pyIsWord c = true) : pyIsSpace c = false := by
  cases hsp : pyIsSpace c with
  | false => rfl
  | true =>
    exfalso
    simp only [pyIsSpace, Bool.or_eq_true, beq_iff_eq] at hsp
    rcases hsp with ((((h1 | h1) | h1) | h1) | h1) | h1 <;> subst h1 <;>
      revert h <;> decide

/-- A digit character is a word character, is not whitespace, and is none
of the delimiter characters the parser splits on. -/
theorem digit_char_facts {c : Char} (h : c.isDigit = true) :
    pyIsWord c = true ∧ pyIsSpace c = false ∧ (c == ')') = false ∧
      (c == ',') = false := by
  have h48 : 48 ≤ c.toNat ∧ c.toNat ≤ 57 := by
    simp only [Char.isDigit, decide_eq_true_eq, Bool.and_eq_true] at h
    exact ⟨h.1, h.2⟩
  refine ⟨?_, ?_, ?_, ?_⟩
  · simp only [pyIsWord, Char.isAlphanum, Bool.or_eq_true]
    left; right
    simp only [Char.isDigit, decide_eq_true_eq, Bool.and_eq_true]
    exact ⟨by exact_mod_cast h48.1, by exact_mod_cast h48.2⟩
  · cases hsp : pyIsSpace c with
    | false => rfl
    | true =>
      exfalso
      simp only [pyIsSpace, Bool.or_eq_true, beq_iff_eq] at hsp
      rcases hsp with ((((h1 | h1) | h1) | h1) | h1) | h1 <;> subst h1 <;>
        revert h <;> decide
  · cases hp : (c == ')') with
    | false => rfl
    | true =>
      exfalso
      have : c = ')' := by exact beq_iff_eq.mp hp
      subst this; revert h; decide
  · cases hp : (c == ',') with
    | false => rfl
    | true =>
      exfalso
      have : c = ',' := by exact beq_iff_eq.mp hp
      subst this; revert h; decide

/-- If the parenthesized pattern matches at the head, the left-to-right
scan returns that match. -/
theorem findParen_of_here {cs : List Char} {r : List Char × List Char}
    (h : matchParenHere cs = some r) : findParen cs = some r := by
  cases cs with
  | nil =>
    rw [show matchParenHere [] = none from rfl] at h
    exact absurd h (by simp)
  | cons c rest =>
    unfold findParen
    rw [h]

/-- If the bare pattern matches at the head, the scan returns that match. -/
theorem findBare_of_here {cs : List Char} {r : List Char}
    (h : matchBareHere cs = some r) : findBare cs = some r := by
  cases cs with
  | nil =>
    rw [show matchBareHere [] = none from rfl] at h
    exact absurd h (by simp)
  | cons c rest =>
    unfold findBare
    rw [h]

/-- Evaluation of the anchored parenthesized match on a well-formed call
`Action: <name>(<r>`: the name is captured, and the argument group is read
from `r` up to its first `)`. -/
theorem matchParenHere_build (name r : List Char) (hne : name ≠ [])
    (hword : ∀ c ∈ name, pyIsWord c = true) :
    matchParenHere ("Action: ".data ++ name ++ '(' :: r) =
      match r.dropWhile (fun c => !(c == ')')) with
      | ')' :: _ => some (name, r.takeWhile (fun c => !(c == ')')))
      | _ => none := by
  obtain ⟨c0, name', rfl⟩ : ∃ c0 name', name = c0 :: name' := by
    cases name with
    | nil => exact absurd rfl hne
    | cons a b => exact ⟨a, b, rfl⟩
  have hlit : dropLit "Action:".data ("Action: ".data ++ (c0 :: name') ++ '(' :: r) =
      some (' ' :: ((c0 :: name') ++ '(' :: r)) := rfl
  unfold matchParenHere
  rw [hlit]
  have hc0 : pyIsWord c0 = true := hword c0 (List.mem_cons_self c0 name')
  have hws : (' ' :: ((c0 :: name') ++ '(' :: r)).dropWhile pyIsSpace =
      (c0 :: name') ++ '(' :: r := by
    rw [List.dropWhile_cons]
    simp only [show pyIsSpace ' ' = true from rfl, if_true, List.cons_append,
      List.dropWhile_cons, word_not_space hc0, Bool.false_eq_true, if_false]
  have htw : ((c0 :: name') ++ '(' :: r).takeWhile pyIsWord = c0 :: name' := by
    rw [takeWhile_append_all hword]
    simp [List.takeWhile_cons, show pyIsWord '(' = false from rfl]
  have hdw : ((c0 :: name') ++ '(' :: r).dropWhile pyIsWord = '(' :: r := by
    rw [dropWhile_append_all hword]
    simp [List.dropWhile_cons, show pyIsWord '(' = false from rfl]
  simp only [hws, htw, hdw]
  simp

/-- Evaluation of the anchored bare match on `Action: <name>` followed by
a non-word remainder. -/
theorem matchBareHere_build (name r : List Char) (hne : name ≠ [])
    (hword : ∀ c ∈ name, pyIsWord c = true)
    (hstop : ∀ h : 0 < r.length, pyIsWord (r.get ⟨0, h⟩) = false) :
    matchBareHere ("Action: ".data ++ name ++ r) = some name := by
  obtain ⟨c0, name', rfl⟩ : ∃ c0 name', name = c0 :: name' := by
    cases name with
    | nil => exact absurd rfl hne
    | cons a b => exact ⟨a, b, rfl⟩
  have hlit : dropLit "Action:".data ("Action: ".data ++ (c0 :: name') ++ r) =
      some (' ' :: ((c0 :: name') ++ r)) := rfl
  unfold matchBareHere
  rw [hlit]
  have hc0 : pyIsWord c0 = true := hword c0 (List.mem_cons_self c0 name')
  have hws : (' ' :: ((c0 :: name') ++ r)).dropWhile pyIsSpace =
      (c0 :: name') ++ r := by
    rw [List.dropWhile_cons]
    simp only [show pyIsSpace ' ' = true from rfl, if_true, List.cons_append,
      List.dropWhile_cons, word_not_space hc0, Bool.false_eq_true, if_false]
  have htw : ((c0 :: name') ++ r).takeWhile pyIsWord = c0 :: name' := by
    rw [takeWhile_append_all hword]
    cases r with
    | nil => simp
    | cons d r' =>
      have : pyIsWord d = false := hstop (by simp)
      simp [List.takeWhile_cons, this]
  simp only [hws, htw]
  simp

theorem dropWhile_eq_self_head {α : Type} {p : α → Bool} {l : List α}
    (h : ∀ c, l.head? = some c → p c = false) : l.dropWhile p = l := by
  cases l with
  | nil => rfl
  | cons c cs => simp [List.dropWhile_cons, h c rfl]

theorem mem_of_getLast? {α : Type} {l : List α} {c : α}
    (h : l.getLast? = some c) : c ∈ l := by
  induction l with
  | nil => simp at h
  | cons a as ih =>
    cases as with
    | nil =>
      simp [List.getLast?] at h
      simp [h]
    | cons b bs =>
      rw [List.getLast?_cons_cons] at h
      exact List.mem_cons_of_mem a (ih h)

/-- `strip()` is the identity on a string whose first and last characters
are not whitespace. -/
theorem pyStrip_eq_self {cs : List Char}
    (hh : ∀ c, cs.head? = some c → pyIsSpace c = false)
    (hl : ∀ c, cs.getLast? = some c → pyIsSpace c = false) :
    pyStrip cs = cs := by
  unfold pyStrip
  rw [dropWhile_eq_self_head hh, dropWhile_eq_self_head (by
    intro c hc
    rw [List.head?_reverse] at hc
    exact hl c hc), List.reverse_reverse]

theorem pyStrip_space_cons (cs : List Char) :
    pyStrip (' ' :: cs) = pyStrip cs := by
  unfold pyStrip
  rw [List.dropWhile_cons]
  simp [show pyIsSpace ' ' = true from rfl]

/-- Evaluation of `parse_action` on a response that is a single well-formed
call `Action: <name>(<t>)` whose argument text contains no `)`. -/
theorem parse_action_build (name t : List Char) (hne : name ≠ [])
    (hword : ∀ c ∈ name, pyIsWord c = true)
    (ht : ∀ c ∈ t, (c == ')') = false) :
    parse_action (String.mk ("Action: ".data ++ name ++ '(' :: (t ++ [')']))) =
      dispatchAction (String.mk name) (pyStrip t) := by
  have hclose : ∀ c ∈ t, (fun c => !(c == ')')) c = true := by
    intro c hc
    simp [ht c hc]
  have hmatch : matchParenHere ("Action: ".data ++ name ++ '(' :: (t ++ [')'])) =
      some (name, t) := by
    rw [matchParenHere_build name (t ++ [')']) hne hword]
    have hdw : (t ++ [')']).dropWhile (fun c => !(c == ')')) = [')'] := by
      rw [dropWhile_append_all hclose]
      rfl
    have htw : (t ++ [')']).takeWhile (fun c => !(c == ')')) = t := by
      rw [takeWhile_append_all hclose]
      simp [List.takeWhile_cons]
    rw [hdw, htw]
    rfl
  unfold parse_action
  have hdata : (String.mk ("Action: ".data ++ name ++ '(' :: (t ++ [')']))).data =
      "Action: ".data ++ name ++ '(' :: (t ++ [')']) := rfl
  rw [hdata, findParen_of_here hmatch]

theorem dispatchAction_Type {t : List Char} (hne : t ≠ []) :
    dispatchAction "Type" t =
      .ok { name := "Type", args := [("content", .str (String.mk t))] } := by
  unfold dispatchAction
  rw [if_neg (by decide), if_neg (by decide), if_pos rfl, if_neg hne]

theorem dispatchAction_Press {t : List Char} (hne : t ≠ []) :
    dispatchAction "Press" t =
      .ok { name := "Press", args := [("key", .str (String.mk t))] } := by
  unfold dispatchAction
  rw [if_neg (by decide), if_neg (by decide), if_neg (by decide), if_pos rfl,
    if_neg hne]

theorem dispatchAction_CallUser {t : List Char} (hne : t ≠ []) :
    dispatchAction "CallUser" t =
      .ok { name := "CallUser", args := [("question", .str (String.mk t))] } := by
  unfold dispatchAction
  rw [if_neg (by decide), if_neg (by decide), if_neg (by decide),
    if_neg (by decide), if_pos rfl, if_neg hne]

theorem splitComma_ne_nil (cs : List Char) : splitComma cs ≠ [] := by
  cases cs with
  | nil => simp [splitComma]
  | cons c rest =>
    unfold splitComma
    cases h : splitComma rest with
    | nil => simp
    | cons a b =>
      by_cases hc : c = ','
      · simp [hc]
      · simp [hc]

theorem splitComma_no_comma {cs : List Char}
    (h : ∀ c ∈ cs, (c == ',') = false) : splitComma cs = [cs] := by
  induction cs with
  | nil => rfl
  | cons c rest ih =>
    have hc : ¬(c = ',') := by
      intro hc
      have := h c (List.mem_cons_self c rest)
      rw [hc] at this
      simp at this
    unfold splitComma
    rw [ih (fun x hx => h x (List.mem_cons_of_mem c hx))]
    simp [hc]

theorem splitComma_append {l : List Char} (r : List Char)
    (h : ∀ c ∈ l, (c == ',') = false) :
    splitComma (l ++ ',' :: r) = l :: splitComma r := by
  induction l with
  | nil =>
    simp only [List.nil_append]
    obtain ⟨a, b, hab⟩ : ∃ a b, splitComma r = a :: b := by
      cases hr : splitComma r with
      | nil => exact absurd hr (splitComma_ne_nil r)
      | cons a b => exact ⟨a, b, rfl⟩
    rw [hab]
    rw [show splitComma (',' :: r) =
      match splitComma r with
      | [] => [[]]
      | h :: t => if ',' = ',' then [] :: h :: t else (',' :: h) :: t from rfl]
    rw [hab]
    simp
  | cons c l' ih =>
    have hc : ¬(c = ',') := by
      intro hc
      have := h c (List.mem_cons_self c l')
      rw [hc] at this
      simp at this
    simp only [List.cons_append]
    rw [show splitComma (c :: (l' ++ ',' :: r)) =
      match splitComma (l' ++ ',' :: r) with
      | [] => [[]]
      | h :: t => if c = ',' then [] :: h :: t else (c :: h) :: t from rfl]
    rw [ih (fun x hx => h x (List.mem_cons_of_mem c hx))]
    simp [hc]

theorem pyInt_digits {cs : List Char} (hne : cs ≠ [])
    (hd : ∀ c ∈ cs, c.isDigit = true) :
    pyInt cs = some ((digitsVal cs : Int)) := by
  unfold pyInt
  split
  · rename_i rest
    exact absurd (hd '+' (List.mem_cons_self _ _)) (by decide)
  · rename_i rest
    exact absurd (hd '-' (List.mem_cons_self _ _)) (by decide)
  · rw [if_pos ⟨hne, List.all_eq_true.mpr hd⟩]

theorem head?_append_left {α : Type} {l l' : List α} (h : l ≠ []) :
    (l ++ l').head? = l.head? := by
  cases l with
  | nil => exact absurd rfl h
  | cons a b => rfl

theorem getLast?_append_right {α : Type} {l l' : List α} (h : l' ≠ []) :
    (l ++ l').getLast? = l'.getLast? := by
  rw [List.getLast?_append]
  cases hl : l'.getLast? with
  | some a => rfl
  | none =>
    exfalso
    cases l' with
    | nil => exact absurd rfl h
    | cons a b =>
      rw [List.getLast?_eq_getLast _ (by simp)] at hl
      simp at hl

theorem mem_of_head? {α : Type} {l : List α} {c : α}
    (h : l.head? = some c) : c ∈ l := by
  cases l with
  | nil => simp at h
  | cons a b =>
    simp only [List.head?, Option.some.injEq] at h
    subst h
    exact List.mem_cons_self a b

/-- `strip()` is the identity on a digit string. -/
theorem pyStrip_digits {cs : List Char} (hd : ∀ c ∈ cs, c.isDigit = true) :
    pyStrip cs = cs :=
  pyStrip_no_space (fun c hc => (digit_char_facts (hd c hc)).2.1)

/-- Evaluation of the `Click` branch on `"<xs>, <ys>"` with in-range
digit strings. -/
theorem dispatchAction_Click {xs ys : List Char} (hx : isDigitString xs)
    (hy : isDigitString ys) (hxr : digitsVal xs ≤ 1000)
    (hyr : digitsVal ys ≤ 1000) :
    dispatchAction "Click" (xs ++ ',' :: ' ' :: ys) =
      .ok { name := "Click"
            args := [("x", .int (digitsVal xs)), ("y", .int (digitsVal ys))] } := by
  obtain ⟨hxne, hxd⟩ := hx
  obtain ⟨hyne, hyd⟩ := hy
  have hmap : (splitComma (xs ++ ',' :: ' ' :: ys)).map pyStrip = [xs, ys] := by
    rw [splitComma_append (' ' :: ys)
      (fun c hc => (digit_char_facts (hxd c hc)).2.2.2)]
    rw [splitComma_no_comma (by
      intro c hc
      rcases List.mem_cons.mp hc with h1 | h1
      · subst h1; decide
      · exact (digit_char_facts (hyd c h1)).2.2.2)]
    simp only [List.map]
    rw [pyStrip_digits hxd, pyStrip_space_cons, pyStrip_digits hyd]
  unfold dispatchAction
  rw [if_pos rfl, if_neg (by simp)]
  simp only [hmap]
  rw [if_neg (by simp)]
  have h0 : ([xs, ys].getD 0 []) = xs := rfl
  have h1 : ([xs, ys].getD 1 []) = ys := rfl
  rw [h0, h1, pyInt_digits hxne hxd, pyInt_digits hyne hyd]
  exact if_neg (by
    push_neg
    refine ⟨Int.natCast_nonneg _, by exact_mod_cast hxr,
      Int.natCast_nonneg _, by exact_mod_cast hyr⟩)

/-- Evaluation of the `Scroll` branch on `"<xs>,<ys>,down"` with digit
strings: no range check is applied. -/
theorem dispatchAction_Scroll {xs ys : List Char} (hx : isDigitString xs)
    (hy : isDigitString ys) :
    dispatchAction "Scroll" (xs ++ ',' :: (ys ++ ',' :: "down".data)) =
      .ok { name := "Scroll"
            args := [("x", .int (digitsVal xs)), ("y", .int (digitsVal ys)),
              ("direction", .str "down")] } := by
  obtain ⟨hxne, hxd⟩ := hx
  obtain ⟨hyne, hyd⟩ := hy
  have hmap : (splitComma (xs ++ ',' :: (ys ++ ',' :: "down".data))).map pyStrip =
      [xs, ys, "down".data] := by
    rw [splitComma_append (ys ++ ',' :: "down".data)
      (fun c hc => (digit_char_facts (hxd c hc)).2.2.2)]
    rw [splitComma_append "down".data
      (fun c hc => (digit_char_facts (hyd c hc)).2.2.2)]
    rw [splitComma_no_comma (by decide)]
    simp only [List.map]
    rw [pyStrip_digits hxd, pyStrip_digits hyd]
    rw [show pyStrip "down".data = "down".data from by decide]
  unfold dispatchAction
  rw [if_neg (by decide), if_pos rfl, if_neg (by simp)]
  simp only [hmap]
  rw [if_neg (by simp)]
  have h0 : ([xs, ys, "down".data].getD 0 []) = xs := rfl
  have h1 : ([xs, ys, "down".data].getD 1 []) = ys := rfl
  have h2 : ([xs, ys, "down".data].getD 2 []) = "down".data := rfl
  rw [h0, h1, h2, pyInt_digits hxne hxd, pyInt_digits hyne hyd]
  exact if_neg (by decide)

/-! ## C9: reasoning extraction by the run recorder -/

/-- C9 counterexample: the recorder does not persist exactly the substring
between the tags — the source applies `.strip()` to the captured group, so
for the reply `"<reasoning> hi </reasoning>"`, whose substring between the
tags is `" hi "`, the persisted text is `"hi"`. -/
theorem C9_reasoning_not_exact_substring :
    "<reasoning> hi </reasoning>" = "<reasoning>" ++ " hi " ++ "</reasoning>" ∧
    extract_reasoning "<reasoning> hi </reasoning>" = "hi" ∧
    ("hi" : String) ≠ " hi " := by
  refine ⟨by decide, by decide, by decide⟩

/-- C9 (amended): for every recorded step, the persisted reasoning text is
the whitespace-stripped substring of the model reply between the first
`<reasoning>` tag and the earliest `</reasoning>` tag after it, and the
empty string when no such tag pair is present — both when the reply has no
`<reasoning>` tag at all, and when its first `<reasoning>` tag has no
`</reasoning>` after it (in which case no later opening tag can have one
either, so the regex finds no match). -/
theorem C9_reasoning_extraction :
    (∀ pre mid post : List Char,
      findSub "<reasoning>".data
          (pre ++ "<reasoning>".data ++ mid ++ "</reasoning>".data ++ post) =
        some pre.length →
      findSub "</reasoning>".data (mid ++ "</reasoning>".data ++ post) =
        some mid.length →
      extract_reasoning (String.mk
          (pre ++ "<reasoning>".data ++ mid ++ "</reasoning>".data ++ post)) =
        String.mk (pyStrip mid)) ∧
    (∀ s : String, findSub "<reasoning>".data s.data = none →
      extract_reasoning s = "") ∧
    (∀ (s : String) (i : Nat),
      findSub "<reasoning>".data s.data = some i →
      findSub "</reasoning>".data
        (s.data.drop (i + "<reasoning>".data.length)) = none →
      extract_reasoning s = "") := by
  refine ⟨?_, ?_, ?_⟩
  · intro pre mid post hopen hclose
    unfold extract_reasoning
    have hdata : (String.mk
        (pre ++ "<reasoning>".data ++ mid ++ "</reasoning>".data ++ post)).data =
        pre ++ "<reasoning>".data ++ mid ++ "</reasoning>".data ++ post := rfl
    rw [hdata, hopen]
    have hdrop :
        (pre ++ "<reasoning>".data ++ mid ++ "</reasoning>".data ++ post).drop
          (pre.length + "<reasoning>".data.length) =
          mid ++ "</reasoning>".data ++ post := by
      have hassoc :
          pre ++ "<reasoning>".data ++ mid ++ "</reasoning>".data ++ post =
            (pre ++ "<reasoning>".data) ++ (mid ++ "</reasoning>".data ++ post) := by
        simp [List.append_assoc]
      rw [hassoc, ← List.length_append, List.drop_left]
    have htake : (mid ++ "</reasoning>".data ++ post).take mid.length = mid := by
      rw [List.append_assoc, List.take_left]
    simp only [hdrop, hclose, htake]
  · intro s h
    unfold extract_reasoning
    rw [h]
  · intro s i h1 h2
    unfold extract_reasoning
    rw [h1]
    simp only [h2]

/-- C9 witness: the amended extraction theorem at a concrete reply, at a
reply with no tags, and at a reply whose opening tag is unmatched. -/
theorem C9_reasoning_extraction_witness :
    extract_reasoning (String.mk
        (" think ".data ++ "<reasoning>".data ++ " use the box ".data ++
          "</reasoning>".data ++ " done".data)) =
      String.mk (pyStrip " use the box ".data) ∧
    extract_reasoning "no tags at all" = "" ∧
    extract_reasoning "<reasoning> no closer" = "" := by
  exact ⟨C9_reasoning_extraction.1 " think ".data " use the box ".data
      " done".data (by decide) (by decide),
    C9_reasoning_extraction.2.1 "no tags at all" (by decide),
    C9_reasoning_extraction.2.2 "<reasoning> no closer" 0 (by decide)
      (by decide)⟩

/-! ## C5: Type/Press/CallUser take the whole argument substring -/

/-- C5 counterexample: the claim's universal statement fails for
`t = " hi "` — the source applies `.strip()` to the captured argument
substring, so the recorded content is `"hi"`, not `" hi "`. -/
theorem C5_counterexample :
    parse_action "Action: Type( hi )" =
      .ok { name := "Type", args := [("content", .str "hi")] } ∧
    ("hi" : String) ≠ " hi " := by
  refine ⟨by decide, by decide⟩

/-- C5 (amended): for `Type`, `Press` and `CallUser` the whole argument
substring between the parentheses becomes the action's content without
being split on commas: for every non-empty `t` that contains no `)` and is
unchanged by whitespace-stripping, parsing `Action: Type(t)` yields content
exactly `t` (likewise `Press`/`CallUser`), and an empty argument substring
is a parse failure for all three. -/
theorem C5_whole_argument_substring :
    (∀ t : List Char, t ≠ [] → (∀ c ∈ t, (c == ')') = false) → pyStrip t = t →
      parse_action (String.mk ("Action: Type(".data ++ t ++ [')'])) =
        .ok { name := "Type", args := [("content", .str (String.mk t))] } ∧
      parse_action (String.mk ("Action: Press(".data ++ t ++ [')'])) =
        .ok { name := "Press", args := [("key", .str (String.mk t))] } ∧
      parse_action (String.mk ("Action: CallUser(".data ++ t ++ [')'])) =
        .ok { name := "CallUser", args := [("question", .str (String.mk t))] }) ∧
    parse_action "Action: Type()" =
      .error "Type requires content: Type(text to type)" ∧
    parse_action "Action: Press()" =
      .error "Press requires a key: Press(Enter)" ∧
    parse_action "Action: CallUser()" =
      .error "CallUser requires a question: CallUser(your question here)" := by
  refine ⟨?_, by decide, by decide, by decide⟩
  intro t hne hnp hstrip
  refine ⟨?_, ?_, ?_⟩
  · have hkey : "Action: Type(".data ++ t ++ [')'] =
        "Action: ".data ++ "Type".data ++ '(' :: (t ++ [')']) := by
      rw [show "Action: Type(".data = "Action: ".data ++ "Type".data ++ ['('] by
        decide]
      simp [List.append_assoc]
    rw [hkey, parse_action_build "Type".data t (by decide) (by decide) hnp,
      hstrip]
    exact dispatchAction_Type hne
  · have hkey : "Action: Press(".data ++ t ++ [')'] =
        "Action: ".data ++ "Press".data ++ '(' :: (t ++ [')']) := by
      rw [show "Action: Press(".data = "Action: ".data ++ "Press".data ++ ['('] by
        decide]
      simp [List.append_assoc]
    rw [hkey, parse_action_build "Press".data t (by decide) (by decide) hnp,
      hstrip]
    exact dispatchAction_Press hne
  · have hkey : "Action: CallUser(".data ++ t ++ [')'] =
        "Action: ".data ++ "CallUser".data ++ '(' :: (t ++ [')']) := by
      rw [show "Action: CallUser(".data =
          "Action: ".data ++ "CallUser".data ++ ['('] by decide]
      simp [List.append_assoc]
    rw [hkey, parse_action_build "CallUser".data t (by decide) (by decide) hnp,
      hstrip]
    exact dispatchAction_CallUser hne

/-- C5 witness: the amended theorem at a text containing commas. -/
theorem C5_whole_argument_substring_witness :
    parse_action (String.mk ("Action: Type(".data ++ "flights, to Paris".data ++
        [')'])) =
      .ok { name := "Type", args := [("content", .str "flights, to Paris")] } :=
  (C5_whole_argument_substring.1 "flights, to Paris".data (by decide) (by decide)
    (by decide)).1

/-! ## C3: Click parsing, range check, and validation order -/

/-- C3: for all in-range coordinates written as digit strings,
`Action: Click(x, y)` parses to a `Click` with those values and no error;
`Click(1001, 500)` and `Click(-1, 0)` fail with the range diagnostic; and
validation is ordered arity → integer format → range: an input violating
both arity and range reports the arity diagnostic, an input violating both
format and range reports the format diagnostic, and the three diagnostics
are pairwise distinct. -/
theorem C3_click_parsing :
    (∀ xs ys : List Char, isDigitString xs → isDigitString ys →
      digitsVal xs ≤ 1000 → digitsVal ys ≤ 1000 →
      parse_action (String.mk
          ("Action: Click(".data ++ xs ++ ", ".data ++ ys ++ [')'])) =
        .ok { name := "Click"
              args := [("x", .int (digitsVal xs)),
                ("y", .int (digitsVal ys))] }) ∧
    parse_action "Action: Click(1001, 500)" =
      .error "Coordinates must be 0-1000, got (1001, 500)" ∧
    parse_action "Action: Click(-1, 0)" =
      .error "Coordinates must be 0-1000, got (-1, 0)" ∧
    parse_action "Action: Click(5000, b)" =
      .error "Invalid argument format: invalid literal for int() with base 10: 'b'" ∧
    parse_action "Action: Click(5000, 6000, 1)" =
      .error "Click requires exactly 2 arguments (x, y), got 3" ∧
    ("Click requires exactly 2 arguments (x, y), got 3" : String) ≠
      "Coordinates must be 0-1000, got (1001, 500)" ∧
    ("Invalid argument format: invalid literal for int() with base 10: 'b'" :
        String) ≠ "Coordinates must be 0-1000, got (1001, 500)" ∧
    ("Click requires exactly 2 arguments (x, y), got 3" : String) ≠
      "Invalid argument format: invalid literal for int() with base 10: 'b'" := by
  refine ⟨?_, by decide, by decide, by decide, by decide, by decide, by decide,
    by decide⟩
  intro xs ys hx hy hxr hyr
  obtain ⟨hxne, hxd⟩ := hx
  obtain ⟨hyne, hyd⟩ := hy
  have hkey : "Action: Click(".data ++ xs ++ ", ".data ++ ys ++ [')'] =
      "Action: ".data ++ "Click".data ++
        '(' :: ((xs ++ ',' :: ' ' :: ys) ++ [')']) := by
    rw [show "Action: Click(".data =
        "Action: ".data ++ "Click".data ++ ['('] from by decide,
      show ", ".data = [',', ' '] from by decide]
    simp [List.append_assoc]
  have hnp : ∀ c ∈ xs ++ ',' :: ' ' :: ys, (c == ')') = false := by
    intro c hc
    rcases List.mem_append.mp hc with h1 | h1
    · exact (digit_char_facts (hxd c h1)).2.2.1
    · rcases List.mem_cons.mp h1 with h2 | h2
      · subst h2; decide
      · rcases List.mem_cons.mp h2 with h3 | h3
        · subst h3; decide
        · exact (digit_char_facts (hyd c h3)).2.2.1
  have hstrip : pyStrip (xs ++ ',' :: ' ' :: ys) = xs ++ ',' :: ' ' :: ys := by
    refine pyStrip_eq_self ?_ ?_
    · intro c hc
      rw [head?_append_left hxne] at hc
      exact (digit_char_facts (hxd c (mem_of_head? hc))).2.1
    · intro c hc
      rw [getLast?_append_right (by simp)] at hc
      rw [show ',' :: ' ' :: ys = [',', ' '] ++ ys from rfl,
        getLast?_append_right hyne] at hc
      exact (digit_char_facts (hyd c (mem_of_getLast? hc))).2.1
  rw [hkey, parse_action_build "Click".data (xs ++ ',' :: ' ' :: ys)
    (by decide) (by decide) hnp, hstrip]
  exact dispatchAction_Click ⟨hxne, hxd⟩ ⟨hyne, hyd⟩ hxr hyr

/-- C3 witness: the universal Click theorem at `(500, 300)`. -/
theorem C3_click_parsing_witness :
    parse_action (String.mk
        ("Action: Click(".data ++ "500".data ++ ", ".data ++ "300".data ++
          [')'])) =
      .ok { name := "Click", args := [("x", .int 500), ("y", .int 300)] } := by
  have h := C3_click_parsing.1 "500".data "300".data
    ⟨by decide, by decide⟩ ⟨by decide, by decide⟩ (by decide) (by decide)
  rw [h]
  decide

/-! ## C6: Scroll parsing -/

/-- C6: `Scroll` requires exactly 3 comma-separated tokens; `x` and `y`
must parse as integers but are not range-checked (the universal part has no
bound on the values, and `(-5, 2000)` is accepted); the direction token is
stripped of surrounding quotes and lower-cased — `'DOWN'` (single-quoted)
succeeds as `down` and `"Up"` (double-quoted) as `up` — and must then be
`up` or `down`, so `UP` succeeds as `up` and `left` fails with a
diagnostic mentioning both words. -/
theorem C6_scroll_parsing :
    (∀ xs ys : List Char, isDigitString xs → isDigitString ys →
      parse_action (String.mk
          ("Action: Scroll(".data ++ xs ++ [','] ++ ys ++ ",down)".data)) =
        .ok { name := "Scroll"
              args := [("x", .int (digitsVal xs)), ("y", .int (digitsVal ys)),
                ("direction", .str "down")] }) ∧
    parse_action "Action: Scroll(-5, 2000, down)" =
      .ok { name := "Scroll"
            args := [("x", .int (-5)), ("y", .int 2000),
              ("direction", .str "down")] } ∧
    parse_action "Action: Scroll(1,2,UP)" =
      .ok { name := "Scroll"
            args := [("x", .int 1), ("y", .int 2),
              ("direction", .str "up")] } ∧
    parse_action "Action: Scroll(1,2,'DOWN')" =
      .ok { name := "Scroll"
            args := [("x", .int 1), ("y", .int 2),
              ("direction", .str "down")] } ∧
    parse_action "Action: Scroll(3,4,\"Up\")" =
      .ok { name := "Scroll"
            args := [("x", .int 3), ("y", .int 4),
              ("direction", .str "up")] } ∧
    parse_action "Action: Scroll(1,2,left)" =
      .error "Scroll direction must be 'up' or 'down', got 'left'" ∧
    "up".data <:+: "Scroll direction must be 'up' or 'down', got 'left'".data ∧
    "down".data <:+:
      "Scroll direction must be 'up' or 'down', got 'left'".data ∧
    parse_action "Action: Scroll(1,2)" =
      .error "Scroll requires 3 arguments (x, y, direction), got 2" := by
  refine ⟨?_, by decide, by decide, by decide, by decide, by decide, by decide,
    by decide, by decide⟩
  intro xs ys hx hy
  obtain ⟨hxne, hxd⟩ := hx
  obtain ⟨hyne, hyd⟩ := hy
  have hkey : "Action: Scroll(".data ++ xs ++ [','] ++ ys ++ ",down)".data =
      "Action: ".data ++ "Scroll".data ++
        '(' :: ((xs ++ ',' :: (ys ++ ',' :: "down".data)) ++ [')']) := by
    rw [show "Action: Scroll(".data =
        "Action: ".data ++ "Scroll".data ++ ['('] from by decide,
      show ",down)".data = ',' :: ("down".data ++ [')']) from by decide]
    simp [List.append_assoc]
  have hnp : ∀ c ∈ xs ++ ',' :: (ys ++ ',' :: "down".data),
      (c == ')') = false := by
    intro c hc
    rcases List.mem_append.mp hc with h1 | h1
    · exact (digit_char_facts (hxd c h1)).2.2.1
    · rcases List.mem_cons.mp h1 with h2 | h2
      · subst h2; decide
      · rcases List.mem_append.mp h2 with h3 | h3
        · exact (digit_char_facts (hyd c h3)).2.2.1
        · rcases List.mem_cons.mp h3 with h4 | h4
          · subst h4; decide
          · exact (by decide : ∀ x ∈ "down".data, (x == ')') = false) c h4
  have hstrip : pyStrip (xs ++ ',' :: (ys ++ ',' :: "down".data)) =
      xs ++ ',' :: (ys ++ ',' :: "down".data) := by
    refine pyStrip_eq_self ?_ ?_
    · intro c hc
      rw [head?_append_left hxne] at hc
      exact (digit_char_facts (hxd c (mem_of_head? hc))).2.1
    · intro c hc
      rw [getLast?_append_right (by simp)] at hc
      rw [show ',' :: (ys ++ ',' :: "down".data) =
          [','] ++ (ys ++ [','] ++ "down".data) from by simp,
        getLast?_append_right (by simp [show "down".data ≠ [] from by decide]),
        getLast?_append_right (by decide)] at hc
      rw [show ("down".data : List Char).getLast? = some 'n' from by decide]
        at hc
      rw [show c = 'n' from (Option.some.injEq _ _ ▸ hc :
        ('n' : Char) = c).symm]
      decide
  rw [hkey, parse_action_build "Scroll".data
    (xs ++ ',' :: (ys ++ ',' :: "down".data)) (by decide) (by decide) hnp,
    hstrip]
  exact dispatchAction_Scroll ⟨hxne, hxd⟩ ⟨hyne, hyd⟩

/-- C6 witness: the universal Scroll theorem at out-of-range `(9999, 0)`,
showing the absence of a range check. -/
theorem C6_scroll_parsing_witness :
    parse_action (String.mk
        ("Action: Scroll(".data ++ "9999".data ++ [','] ++ "0".data ++
          ",down)".data)) =
      .ok { name := "Scroll"
            args := [("x", .int 9999), ("y", .int 0),
              ("direction", .str "down")] } := by
  have h := C6_scroll_parsing.1 "9999".data "0".data
    ⟨by decide, by decide⟩ ⟨by decide, by decide⟩
  rw [h]
  decide

/-! ## C4: totality, bare-name fallback, structured failures -/

theorem str_append_ne_empty {s : String} (t : String) (h : s ≠ "") :
    s ++ t ≠ "" := by
  intro he
  apply h
  have hd := congrArg String.data he
  rw [String.data_append] at hd
  have hs : s.data = [] := (List.append_eq_nil.mp hd).1
  cases s with
  | mk d =>
    cases hs
    rfl

/-- Every branch of the dispatch chain returns either a valid action or a
non-empty diagnostic. -/
theorem dispatchAction_sound (name : String) (args : List Char) :
    (∃ a, dispatchAction name args = .ok a ∧ validAction a) ∨
    (∃ m, dispatchAction name args = .error m ∧ m ≠ "") := by
  unfold dispatchAction
  by_cases h1 : name = "Click"
  · rw [if_pos h1]
    by_cases ha : args = []
    · rw [if_pos ha]; right; exact ⟨_, rfl, by decide⟩
    · rw [if_neg ha]
      simp only [ne_eq]
      split
      · right; exact ⟨_, rfl, str_append_ne_empty _ (by decide)⟩
      · split
        · right
          exact ⟨_, rfl, str_append_ne_empty _ (str_append_ne_empty _
            (by decide))⟩
        · split
          · right
            exact ⟨_, rfl, str_append_ne_empty _ (str_append_ne_empty _
              (by decide))⟩
          · split_ifs with hr
            · left
              exact ⟨_, rfl,
                (by decide : ("Click" : String) ∈ knownActionNames), rfl⟩
            · right
              exact ⟨_, rfl, str_append_ne_empty _ (str_append_ne_empty _
                (str_append_ne_empty _ (str_append_ne_empty _ (by decide))))⟩
  · rw [if_neg h1]
    by_cases h2 : name = "Scroll"
    · rw [if_pos h2]
      by_cases ha : args = []
      · rw [if_pos ha]; right; exact ⟨_, rfl, by decide⟩
      · rw [if_neg ha]
        simp only [ne_eq]
        split
        · right; exact ⟨_, rfl, str_append_ne_empty _ (by decide)⟩
        · split
          · right
            exact ⟨_, rfl, str_append_ne_empty _ (str_append_ne_empty _
              (by decide))⟩
          · split
            · right
              exact ⟨_, rfl, str_append_ne_empty _ (str_append_ne_empty _
                (by decide))⟩
            · split_ifs with hr
              · left
                exact ⟨_, rfl,
                  (by decide : ("Scroll" : String) ∈ knownActionNames), rfl⟩
              · right
                exact ⟨_, rfl, str_append_ne_empty _ (str_append_ne_empty _
                  (by decide))⟩
    · rw [if_neg h2]
      by_cases h3 : name = "Type"
      · rw [if_pos h3]
        by_cases ha : args = []
        · rw [if_pos ha]; right; exact ⟨_, rfl, by decide⟩
        · rw [if_neg ha]; left
          exact ⟨_, rfl, (by decide : ("Type" : String) ∈ knownActionNames), rfl⟩
      · rw [if_neg h3]
        by_cases h4 : name = "Press"
        · rw [if_pos h4]
          by_cases ha : args = []
          · rw [if_pos ha]; right; exact ⟨_, rfl, by decide⟩
          · rw [if_neg ha]; left
            exact ⟨_, rfl,
              (by decide : ("Press" : String) ∈ knownActionNames), rfl⟩
        · rw [if_neg h4]
          by_cases h5 : name = "CallUser"
          · rw [if_pos h5]
            by_cases ha : args = []
            · rw [if_pos ha]; right; exact ⟨_, rfl, by decide⟩
            · rw [if_neg ha]; left
              exact ⟨_, rfl,
                (by decide : ("CallUser" : String) ∈ knownActionNames), rfl⟩
          · rw [if_neg h5]
            by_cases h6 : name = "Wait" ∨ name = "Finished"
            · rw [if_pos h6]
              left
              refine ⟨_, rfl, ?_, rfl⟩
              rcases h6 with h | h <;> rw [h] <;> decide
            · rw [if_neg h6]
              right
              exact ⟨_, rfl, str_append_ne_empty _ (by decide)⟩

/-- C4: `parse_action` never crashes: on every input it returns either a
valid action (recognized name, no error) or a structured failure with a
non-empty diagnostic; a bare `Action: Name` (when no parenthesized call
exists) succeeds with empty arguments exactly for `Wait` and `Finished`
and fails with the `requires arguments` diagnostic otherwise; and an input
with no `Action:` token fails with the `no valid action found`
diagnostic. -/
theorem C4_parse_total_and_structured :
    (∀ s : String,
      (∃ a, parse_action s = .ok a ∧ validAction a) ∨
      (∃ m, parse_action s = .error m ∧ m ≠ "")) ∧
    (∀ (s : String) (name : List Char),
      findParen s.data = none → findBare s.data = some name →
      ((String.mk name = "Wait" ∨ String.mk name = "Finished") →
        parse_action s = .ok { name := String.mk name }) ∧
      (String.mk name ≠ "Wait" → String.mk name ≠ "Finished" →
        parse_action s = .error ("Action '" ++ String.mk name ++
          "' requires arguments but none provided"))) ∧
    (∀ s : String, findParen s.data = none → findBare s.data = none →
      parse_action s =
        .error "No valid action found in response. Expected format: Action: Name(args)") ∧
    parse_action "Action: Wait" = .ok { name := "Wait" } ∧
    parse_action "Action: Finished" = .ok { name := "Finished" } ∧
    parse_action "Action: Click" =
      .error "Action 'Click' requires arguments but none provided" ∧
    parse_action "I will click on the button" =
      .error "No valid action found in response. Expected format: Action: Name(args)" := by
  refine ⟨?_, ?_, ?_, by decide, by decide, by decide, by decide⟩
  · intro s
    unfold parse_action
    cases hfp : findParen s.data with
    | some r => exact dispatchAction_sound (String.mk r.1) (pyStrip r.2)
    | none =>
      cases hfb : findBare s.data with
      | some nameChars =>
        by_cases hwf : String.mk nameChars = "Wait" ∨
            String.mk nameChars = "Finished"
        · left
          refine ⟨_, if_pos hwf, ?_, rfl⟩
          rcases hwf with h | h <;> rw [h] <;> decide
        · right
          exact ⟨_, if_neg hwf, str_append_ne_empty _ (str_append_ne_empty _
            (by decide))⟩
      | none => right; exact ⟨_, rfl, by decide⟩
  · intro s name hfp hfb
    unfold parse_action
    rw [hfp, hfb]
    constructor
    · intro h; exact if_pos h
    · intro h1 h2; exact if_neg (by tauto)
  · intro s hfp hfb
    unfold parse_action
    rw [hfp, hfb]

/-- C4 witness: the totality disjunction and both fallback branches at
concrete inputs. -/
theorem C4_parse_total_witness :
    ((∃ a, parse_action "Action: Wait()" = .ok a ∧ validAction a) ∨
      (∃ m, parse_action "Action: Wait()" = .error m ∧ m ≠ "")) ∧
    parse_action "Action: Jump" =
      .error "Action 'Jump' requires arguments but none provided" ∧
    parse_action "hello" =
      .error "No valid action found in response. Expected format: Action: Name(args)" := by
  refine ⟨C4_parse_total_and_structured.1 "Action: Wait()", ?_, ?_⟩
  · exact (C4_parse_total_and_structured.2.1 "Action: Jump" "Jump".data
      (by decide) (by decide)).2 (by decide) (by decide)
  · exact C4_parse_total_and_structured.2.2.1 "hello" (by decide) (by decide)

/-! ## C10: leftmost parenthesized call wins; bare form is a fallback -/

/-- The scan `findParen` settles on a match no later than any position
where the anchored pattern matches. -/
theorem findParen_leftmost :
    ∀ (cs : List Char) (i : Nat) (r : List Char × List Char),
      matchParenHere (cs.drop i) = some r →
      ∃ j r2, j ≤ i ∧ matchParenHere (cs.drop j) = some r2 ∧
        findParen cs = some r2 := by
  intro cs
  induction cs with
  | nil =>
    intro i r h
    rw [List.drop_nil, show matchParenHere [] = none from rfl] at h
    exact absurd h (by simp)
  | cons c rest ih =>
    intro i r h
    cases hm : matchParenHere (c :: rest) with
    | some r0 =>
      refine ⟨0, r0, Nat.zero_le i, by simpa using hm, ?_⟩
      unfold findParen
      rw [hm]
    | none =>
      cases i with
      | zero =>
        rw [List.drop_zero, hm] at h
        exact absurd h (by simp)
      | succ i2 =>
        obtain ⟨j, r2, hji, hmj, hfp⟩ := ih i2 r (by simpa using h)
        refine ⟨j + 1, r2, Nat.succ_le_succ hji, by simpa using hmj, ?_⟩
        unfold findParen
        rw [hm]
        exact hfp

/-- C10: `parse_action` acts on the leftmost parenthesized
`Action: Name(args)` anywhere in the text (not only at line starts), and
the bare fallback is consulted only when no parenthesized call exists: a
parenthesized call appearing later in the text takes precedence over an
earlier bare name, witnessed concretely by a reply whose bare match is
`Wait` at the very start but whose parse result is the later `Click`. -/
theorem C10_leftmost_paren_wins :
    (∀ (s : String) (i : Nat) (r : List Char × List Char),
      matchParenHere (s.data.drop i) = some r →
      ∃ j r2, j ≤ i ∧ matchParenHere (s.data.drop j) = some r2 ∧
        parse_action s = dispatchAction (String.mk r2.1) (pyStrip r2.2)) ∧
    parse_action "Action: Wait\nthen Action: Click(5, 6)" =
      .ok { name := "Click", args := [("x", .int 5), ("y", .int 6)] } ∧
    findBare "Action: Wait\nthen Action: Click(5, 6)".data =
      some "Wait".data ∧
    parse_action "say Action: Click(1, 2) then Action: Click(3, 4)" =
      .ok { name := "Click", args := [("x", .int 1), ("y", .int 2)] } := by
  refine ⟨?_, by decide, by decide, by decide⟩
  intro s i r h
  obtain ⟨j, r2, hji, hmj, hfp⟩ := findParen_leftmost s.data i r h
  refine ⟨j, r2, hji, hmj, ?_⟩
  unfold parse_action
  rw [hfp]

/-- C10 witness: the leftmost-match component at a concrete reply and
position. -/
theorem C10_leftmost_paren_wins_witness :
    ∃ j r2, j ≤ 4 ∧
      matchParenHere ("say Action: Click(1, 2)".data.drop j) = some r2 ∧
      parse_action "say Action: Click(1, 2)" =
        dispatchAction (String.mk r2.1) (pyStrip r2.2) :=
  C10_leftmost_paren_wins.1 "say Action: Click(1, 2)" 4
    ("Click".data, "1, 2".data) (by decide)

/-! ## Trimming lemmas (C2, C7, C8) -/

theorem imageIndicesFrom_cons (j : Nat) (msg : Message) (rest : List Message) :
    imageIndicesFrom j (msg :: rest) =
      (if msgHasImage msg then [j] else []) ++ imageIndicesFrom (j + 1) rest := by
  unfold imageIndicesFrom
  rw [show List.enumFrom j (msg :: rest) =
    (j, msg) :: List.enumFrom (j + 1) rest from rfl]
  rw [List.filter_cons]
  cases h : msgHasImage msg <;> simp [h]

theorem imageIndicesFrom_ge {c : List Message} :
    ∀ {j i : Nat}, i ∈ imageIndicesFrom j c → j ≤ i := by
  induction c with
  | nil =>
    intro j i h
    simp [imageIndicesFrom] at h
  | cons msg rest ih =>
    intro j i h
    rw [imageIndicesFrom_cons] at h
    rcases List.mem_append.mp h with h1 | h1
    · cases hm : msgHasImage msg <;> rw [hm] at h1
      · simp at h1
      · simp at h1
        omega
    · have := ih h1
      omega

theorem enumFrom_fst_ge {α : Type} {c : List α} {j : Nat} {p : Nat × α}
    (h : p ∈ List.enumFrom j c) : j ≤ p.1 := by
  obtain ⟨i, x⟩ := p
  exact (List.mem_enumFrom h).1

theorem filterMap_keep_all (c : List Message) :
    ∀ j : Nat, (List.enumFrom j c).filterMap
      (fun p => if p.1 ∈ ([] : List Nat) then stripOpt p.2 else some p.2) =
      c := by
  induction c with
  | nil => intro j; rfl
  | cons msg rest ih =>
    intro j
    rw [show List.enumFrom j (msg :: rest) =
      (j, msg) :: List.enumFrom (j + 1) rest from rfl, List.filterMap_cons]
    rw [if_neg (List.not_mem_nil j)]
    exact congrArg (List.cons msg) (ih (j + 1))

theorem trimSpec_zero (c : List Message) : trimSpec 0 c = c := by
  cases c <;> rfl

theorem trimSpec_succ_cons (m : Nat) (msg : Message) (rest : List Message) :
    trimSpec (m + 1) (msg :: rest) =
      if msgHasImage msg then (stripOpt msg).toList ++ trimSpec m rest
      else msg :: trimSpec (m + 1) rest := rfl

theorem trimSpec_cons_nonimg {msg : Message} (hm : msgHasImage msg = false)
    (m : Nat) (rest : List Message) :
    trimSpec m (msg :: rest) = msg :: trimSpec m rest := by
  cases m with
  | zero => rw [trimSpec_zero, trimSpec_zero]
  | succ m2 => rw [trimSpec_succ_cons, hm]; simp

/-- The pruning loop of `trim_images` equals the spec-level walk
`trimSpec`, for every enumeration offset. -/
theorem trim_core (c : List Message) :
    ∀ j m : Nat,
      (List.enumFrom j c).filterMap
        (fun p => if p.1 ∈ (imageIndicesFrom j c).take m then stripOpt p.2
          else some p.2) = trimSpec m c := by
  induction c with
  | nil => intro j m; cases m <;> rfl
  | cons msg rest ih =>
    intro j m
    rw [show List.enumFrom j (msg :: rest) =
      (j, msg) :: List.enumFrom (j + 1) rest from rfl, List.filterMap_cons]
    cases hm : msgHasImage msg with
    | false =>
      simp only [imageIndicesFrom_cons, hm, Bool.false_eq_true, if_false,
        List.nil_append]
      have hj : ¬(j ∈ (imageIndicesFrom (j + 1) rest).take m) := by
        intro hmem
        have := imageIndicesFrom_ge (List.take_subset m _ hmem)
        omega
      rw [if_neg hj, ih (j + 1) m, trimSpec_cons_nonimg hm]
    | true =>
      cases m with
      | zero =>
        simp only [imageIndicesFrom_cons, hm, if_true, List.singleton_append,
          List.take_zero]
        rw [if_neg (List.not_mem_nil j), filterMap_keep_all rest (j + 1),
          trimSpec_zero]
      | succ m2 =>
        simp only [imageIndicesFrom_cons, hm, if_true, List.singleton_append,
          List.take_succ_cons]
        rw [if_pos (List.mem_cons_self j _)]
        have hcong :
            List.filterMap
              (fun p => if p.1 ∈ j :: (imageIndicesFrom (j + 1) rest).take m2
                then stripOpt p.2 else some p.2)
              (List.enumFrom (j + 1) rest) =
            List.filterMap
              (fun p => if p.1 ∈ (imageIndicesFrom (j + 1) rest).take m2
                then stripOpt p.2 else some p.2)
              (List.enumFrom (j + 1) rest) := by
          apply List.filterMap_congr
          intro p hp
          have hge : j + 1 ≤ p.1 := enumFrom_fst_ge hp
          by_cases hin : p.1 ∈ (imageIndicesFrom (j + 1) rest).take m2
          · rw [if_pos (List.mem_cons.mpr (Or.inr hin)), if_pos hin]
          · rw [if_neg (by
              rw [List.mem_cons]
              push_neg
              exact ⟨by omega, hin⟩), if_neg hin]
        rw [hcong, ih (j + 1) m2, trimSpec_succ_cons, hm, if_pos rfl]
        cases hso : stripOpt msg <;> simp

/-- `trim_images` refines the spec's description: below the budget the
conversation is unchanged; otherwise the first `count − max_images`
image-bearing messages are stripped — except that a budget of `0` also
returns the conversation unchanged, because the source computes the
removal set with the Python slice `image_indices[:-max_images]`, which is
empty for `max_images = 0`. -/
theorem trim_images_eq_trimSpec (c : List Message) (k : Nat) :
    trim_images c k =
      if (imageIndices c).length ≤ k then c
      else if k = 0 then c
      else trimSpec ((imageIndices c).length - k) c := by
  have hdef : trim_images c k =
      (if (imageIndices c).length ≤ k then c
       else (List.enumFrom 0 c).filterMap (fun p =>
         if p.1 ∈ pySliceToNeg (imageIndices c) k then stripOpt p.2
         else some p.2)) := rfl
  rw [hdef]
  by_cases h1 : (imageIndices c).length ≤ k
  · rw [if_pos h1, if_pos h1]
  · rw [if_neg h1, if_neg h1]
    by_cases h0 : k = 0
    · subst h0
      rw [if_pos rfl]
      simp only [show pySliceToNeg (imageIndices c) 0 = [] from by
        simp [pySliceToNeg]]
      exact filterMap_keep_all c 0
    · rw [if_neg h0]
      simp only [show pySliceToNeg (imageIndices c) k =
          (imageIndices c).take ((imageIndices c).length - k) from by
        simp [pySliceToNeg, h0]]
      exact trim_core c 0 ((imageIndices c).length - k)

theorem imageIndicesFrom_length (c : List Message) :
    ∀ j, (imageIndicesFrom j c).length = (c.filter msgHasImage).length := by
  induction c with
  | nil => intro j; rfl
  | cons msg rest ih =>
    intro j
    rw [imageIndicesFrom_cons, List.filter_cons]
    cases hm : msgHasImage msg <;> simp [ih]

theorem imageIndices_length (c : List Message) :
    (imageIndices c).length = (c.filter msgHasImage).length :=
  imageIndicesFrom_length c 0

/-- A message produced by stripping image parts carries no image part. -/
theorem msgHasImage_stripOpt {msg mm : Message} (h : stripOpt msg = some mm) :
    msgHasImage mm = false := by
  unfold stripOpt at h
  split at h
  · rename_i b cont l hrole hcont
    simp only [ne_eq] at h
    split_ifs at h with hne
    injection h with h
    subst h
    simp only [msgHasImage]
    rw [show (("user" : String) == "user") = true from rfl, Bool.true_and]
    cases hany : ((l.filter (fun item => !(item.type == "image_url"))).any
        (fun item => item.type == "image_url")) with
    | false => rfl
    | true =>
      exfalso
      obtain ⟨x, hx, hq⟩ := List.any_eq_true.mp hany
      have hnq := (List.mem_filter.mp hx).2
      rw [hq] at hnq
      simp at hnq
  · exact absurd h (by simp)

/-- The rewrite applied to a selected image-bearing message: keep exactly
the non-image parts, or drop the message when none remain. -/
theorem stripOpt_eq_of_image {msg : Message} (h : msgHasImage msg = true) :
    stripOpt msg =
      if keptParts msg = [] then none
      else some { role := "user", content := .parts (keptParts msg) } := by
  unfold msgHasImage at h
  rw [Bool.and_eq_true] at h
  obtain ⟨hrole, hcont⟩ := h
  cases hc : msg.content with
  | str s =>
    rw [hc] at hcont
    exact absurd hcont (by simp)
  | parts l =>
    have hk : keptParts msg = l.filter (fun item => !(item.type == "image_url")) := by
      simp [keptParts, partsOf, hc]
    unfold stripOpt
    simp only [hrole, hc]
    rw [← hk]
    by_cases hne : keptParts msg = [] <;> simp [hne]

theorem trimSpec_filter (c : List Message) :
    ∀ m, m ≤ (c.filter msgHasImage).length →
      (trimSpec m c).filter msgHasImage = (c.filter msgHasImage).drop m := by
  induction c with
  | nil => intro m hm; cases m <;> rfl
  | cons msg rest ih =>
    intro m hm
    cases hImg : msgHasImage msg with
    | false =>
      rw [trimSpec_cons_nonimg hImg]
      simp only [List.filter_cons, hImg, Bool.false_eq_true, if_false] at hm ⊢
      exact ih m hm
    | true =>
      cases m with
      | zero => rw [trimSpec_zero, List.drop_zero]
      | succ m2 =>
        rw [trimSpec_succ_cons, hImg, if_pos rfl, List.filter_append]
        have h1 : ((stripOpt msg).toList).filter msgHasImage = [] := by
          cases hso : stripOpt msg with
          | none => rfl
          | some mm => simp [msgHasImage_stripOpt hso]
        have hfil : (msg :: rest).filter msgHasImage =
            msg :: rest.filter msgHasImage := by
          simp [List.filter_cons, hImg]
        rw [h1, List.nil_append, hfil, List.drop_succ_cons]
        rw [hfil] at hm
        exact ih m2 (by simpa using Nat.succ_le_succ_iff.mp (by simpa using hm))

theorem trimSpec_preserves (c : List Message) :
    ∀ m (msg : Message), msg ∈ (c.filter msgHasImage).take m →
      keptParts msg ≠ [] →
      { role := "user", content := .parts (keptParts msg) } ∈ trimSpec m c := by
  induction c with
  | nil => intro m msg h _; simp at h
  | cons m0 rest ih =>
    intro m msg hmem hne
    cases hImg : msgHasImage m0 with
    | false =>
      rw [trimSpec_cons_nonimg hImg]
      have hmem' : msg ∈ (rest.filter msgHasImage).take m := by
        simpa [List.filter_cons, hImg] using hmem
      exact List.mem_cons_of_mem _ (ih m msg hmem' hne)
    | true =>
      cases m with
      | zero => simp at hmem
      | succ m2 =>
        rw [trimSpec_succ_cons, hImg, if_pos rfl]
        have hfil : (m0 :: rest).filter msgHasImage =
            m0 :: rest.filter msgHasImage := by
          simp [List.filter_cons, hImg]
        rw [hfil, List.take_succ_cons] at hmem
        rcases List.mem_cons.mp hmem with h1 | h1
        · subst h1
          rw [stripOpt_eq_of_image hImg, if_neg hne]
          exact List.mem_append.mpr (Or.inl (by simp))
        · exact List.mem_append.mpr (Or.inr (ih m2 msg h1 hne))

/-! ## C2: image retention -/

/-- C2 counterexample: with budget `k = 0` and one image-bearing message
(`n = 1 > k`), the source's Python slice `image_indices[:-0]` is empty, so
nothing is removed and the result still contains one image-bearing
message, contradicting "the result contains at most k messages with an
image part". -/
theorem C2_budget_zero_counterexample :
    ((convOne.filter msgHasImage).length = 1) ∧
    trim_images convOne 0 = convOne ∧
    ¬(((trim_images convOne 0).filter msgHasImage).length ≤ 0) := by
  refine ⟨by decide, by decide, by decide⟩

/-- C2 (amended): for every conversation and every budget `k ≥ 1`: if the
number `n` of image-bearing messages is at most `k` the conversation is
returned unchanged; if `n > k` the result contains exactly `k`
image-bearing messages, namely the last `k` of them in transcript order,
and every stripped older message with a non-empty remainder of non-image
parts survives as a user message carrying exactly those parts.  (At
`k = 0` the source returns the conversation unchanged, because the removal
set is computed with the Python slice `image_indices[:-max_images]`, which
is empty for `max_images = 0`.) -/
theorem C2_trim_retention :
    (∀ (c : List Message) (k : Nat),
      (c.filter msgHasImage).length ≤ k → trim_images c k = c) ∧
    (∀ (c : List Message) (k : Nat), 1 ≤ k →
      k < (c.filter msgHasImage).length →
      ((trim_images c k).filter msgHasImage).length = k ∧
      (trim_images c k).filter msgHasImage =
        (c.filter msgHasImage).drop ((c.filter msgHasImage).length - k) ∧
      (∀ msg ∈ (c.filter msgHasImage).take ((c.filter msgHasImage).length - k),
        keptParts msg ≠ [] →
          { role := "user", content := .parts (keptParts msg) } ∈
            trim_images c k)) := by
  constructor
  · intro c k h
    rw [trim_images_eq_trimSpec, if_pos (by rw [imageIndices_length]; exact h)]
  · intro c k hk1 hkn
    have hn := imageIndices_length c
    have hbr : trim_images c k =
        trimSpec ((c.filter msgHasImage).length - k) c := by
      rw [trim_images_eq_trimSpec, if_neg (by omega), if_neg (by omega), hn]
    have hfil := trimSpec_filter c ((c.filter msgHasImage).length - k)
      (by omega)
    refine ⟨?_, ?_, ?_⟩
    · rw [hbr, hfil, List.length_drop]
      omega
    · rw [hbr, hfil]
    · intro msg hmem hne
      rw [hbr]
      exact trimSpec_preserves c _ msg hmem hne

/-- C2 witness: both branches at concrete conversations. -/
theorem C2_trim_retention_witness :
    trim_images convOne 5 = convOne ∧
    ((trim_images convTwo 1).filter msgHasImage).length = 1 :=
  ⟨C2_trim_retention.1 convOne 5 (by decide),
    (C2_trim_retention.2 convTwo 1 (by decide) (by decide)).1⟩

/-! ## C7: idempotence -/

/-- C7: `trim_images` is idempotent for every conversation and every
budget. -/
theorem C7_trim_idempotent :
    ∀ (c : List Message) (k : Nat),
      trim_images (trim_images c k) k = trim_images c k := by
  intro c k
  rw [trim_images_eq_trimSpec c k]
  by_cases h1 : (imageIndices c).length ≤ k
  · rw [if_pos h1, trim_images_eq_trimSpec c k, if_pos h1]
  · rw [if_neg h1]
    by_cases h0 : k = 0
    · rw [if_pos h0, trim_images_eq_trimSpec c k, if_neg h1, if_pos h0]
    · rw [if_neg h0]
      have hn := imageIndices_length c
      have hlen : (imageIndices (trimSpec ((imageIndices c).length - k) c)).length = k := by
        rw [imageIndices_length,
          trimSpec_filter c ((imageIndices c).length - k) (by omega),
          List.length_drop]
        omega
      rw [trim_images_eq_trimSpec, if_pos (by omega)]

/-! ## C8: frame property of trimming -/

/-- C8: `trim_images` refines the spec's walk `trimSpec`: every message
other than the selected oldest image-bearing ones (none at all when the
budget covers the image count, and — through the Python `[:-0]` slice —
also none at budget `0`) passes through unchanged and in order, and a
selected message is rewritten to exactly its non-image parts, being
dropped only when no part remains.  The embedding is a pure function, so
the input conversation is never mutated. -/
theorem C8_trim_frame :
    (∀ (c : List Message) (k : Nat),
      trim_images c k =
        if (imageIndices c).length ≤ k then c
        else if k = 0 then c
        else trimSpec ((imageIndices c).length - k) c) ∧
    (∀ msg : Message, msgHasImage msg = true →
      stripOpt msg =
        if keptParts msg = [] then none
        else some { role := "user", content := .parts (keptParts msg) }) :=
  ⟨trim_images_eq_trimSpec, fun _ h => stripOpt_eq_of_image h⟩

/-- C8 witness: the stripping rewrite at a concrete image-bearing message,
and the refinement at a concrete conversation. -/
theorem C8_trim_frame_witness :
    stripOpt (imgUserMsg "URL1" "img1") =
      some { role := "user", content := .parts [{ type := "text", text := "URL1" }] } ∧
    trim_images convTwo 1 =
      if (imageIndices convTwo).length ≤ 1 then convTwo
      else if 1 = 0 then convTwo
      else trimSpec ((imageIndices convTwo).length - 1) convTwo := by
  constructor
  · rw [C8_trim_frame.2 (imgUserMsg "URL1" "img1") (by decide)]
    decide
  · exact C8_trim_frame.1 convTwo 1

/-! ## C1: the agent loop -/

/-- Every successful run of the loop adds at most `fuel` steps to the
accumulator. -/
theorem runLoop_length {σ : Type} (cfg : AgentConfig σ) :
    ∀ (fuel : Nat) (steps : List Step) (conv : List Message)
      (st : BrowserState) (b : σ) (res : List Step),
      runLoop cfg fuel steps conv st b = .ok res →
      res.length ≤ steps.length + fuel := by
  intro fuel
  induction fuel with
  | zero =>
    intro steps conv st b res h
    unfold runLoop at h
    injection h with h
    subst h
    omega
  | succ n ih =>
    intro steps conv st b res h
    unfold runLoop at h
    simp only [] at h
    repeat' split at h
    all_goals
      first
        | (exact Except.noConfusion h)
        | (injection h with h2
           subst h2
           rw [List.length_append, List.length_singleton]
           omega)
        | (have hb := ih _ _ _ _ _ h
           rw [List.length_append, List.length_singleton] at hb
           omega)

/-- C1: the 3-turn scenario — unparsable text on turn 1, `Click(500,300)`
against a throwing controller on turn 2, `Finished()` on turn 3, with
`max_steps = 10` — produces exactly the three steps `Error` (with the
parse diagnostic), `Click` with `x = 500`, `y = 300` and a populated
execution error, and `Finished`, each carrying the pre-turn browser state;
and every run's trace is bounded by `max_steps`. -/
theorem C1_three_turn_run :
    run scenCfg "buy a book" = .ok scenSteps ∧
    scenSteps.length = 3 ∧
    (∀ (σ : Type) (cfg : AgentConfig σ) (task : String) (steps : List Step),
      run cfg task = .ok steps → steps.length ≤ cfg.max_steps) := by
  refine ⟨by decide, by decide, ?_⟩
  intro σ cfg task steps h
  unfold run at h
  split at h
  · exact absurd h (by simp)
  · have := runLoop_length cfg cfg.max_steps _ _ _ _ _ h
    simpa using this

/-- C1 witness: the length bound applied to the scenario run itself. -/
theorem C1_three_turn_run_witness :
    scenSteps.length ≤ scenCfg.max_steps :=
  C1_three_turn_run.2.2 Unit scenCfg "buy a book" scenSteps
    C1_three_turn_run.1

end WebNav
